import Mathlib

/-
Verification of the whisper-proxy WebSocket bridge
(`services/openai-whisper-proxy/main.py`).

The model is a shallow embedding of the per-connection logic of `ws_proxy`
and its inner `flush_audio` coroutine:

* Python float seconds (event-loop times, `CHUNK_SECONDS`, the timeline
  offset) are modelled as rationals; all values reachable in the claims are
  exact in both representations.
* Audio byte strings are `List Nat`; their contents are opaque to the code.
* The external collaborators are oracles collected in `Env`:
  `backend` is the OpenAI transcription call (`none` models a raised
  exception / timeout, `some text` a successful response); `publishOk n`
  is the outcome of the n-th `redis.xadd` call of the connection
  (`false` models a raised exception); `freshUid n` is the n-th
  `str(uuid.uuid4())` drawn; `nowIso n` is the `datetime.utcnow`
  timestamp string read while building the n-th publish attempt.
  The global `redis` handle is modelled as present (the startup hook has
  run).
* Python truthiness of the string-typed context fields (`token`,
  `platform`, `meeting_id`, `uid`) is modelled by `truthy`; `""` stands
  for both "absent/None" and the empty string, which the guard
  `not token or ...` treats identically.
* A raised exception that escapes `flush_audio` is modelled as
  `Except.error ()`; the receive loop has no handler for it, so it
  aborts the loop (`raised = true`) and control reaches the `finally`
  block, exactly as in the source.
* Inbound WebSocket traffic is a list of `Msg`; the end of the list is
  the `websocket.disconnect` message. Binary frames carry the event-loop
  time of their arrival (only binary frames ever read the clock in the
  source). The accept time is normalised to 0.
-/

namespace WhisperProxy

/-- Python truthiness of a string-valued field: `""` models both
`None` and the empty string. -/
def truthy (s : String) : Bool := s ≠ ""

/-- Configuration and external-world oracles of one connection. -/
structure Env where
  CHUNK_SECONDS : ℚ
  backend : List Nat → Option String
  publishOk : Nat → Bool
  freshUid : Nat → String
  nowIso : Nat → String

/-- Per-connection session context: the nonlocals of `ws_proxy` read and
written by `flush_audio`, plus the counters that index the oracles
(`pubCount` counts `redis.xadd` attempts, `uuidCount` counts
`uuid.uuid4()` draws). -/
structure Sess where
  token : String
  platform : String
  meeting_id : String
  uid : String
  sent_session_start : Bool
  pubCount : Nat
  uuidCount : Nat
deriving DecidableEq

/-- Singleton transcript segment built in `flush_audio`: the dict
`{"text": .., "start": f"{start:.3f}", "end": f"{end:.3f}", "language": None}`.
The JSON key `end` is spelled `end_` (reserved word in Lean). -/
structure Segment where
  text : String
  start : String
  end_ : String
  language : Option String
deriving DecidableEq

/-- Outbound events appended to the Redis stream, in order. -/
inductive Event where
  | session_start (token platform meeting_id uid start_timestamp : String)
  | transcription (token platform meeting_id : String)
      (segments : List Segment) (uid : String)
deriving DecidableEq

/-- Rendering of Python `f"{x:.3f}"` for the nonnegative exact-thousandth
offsets the timeline produces (where float and rational agree and
rounding is exact). -/
def formatFixed3 (x : ℚ) : String :=
  let n : Nat := (round (x * 1000)).toNat
  let frac := n % 1000
  let pad := if frac < 10 then "00" else if frac < 100 then "0" else ""
  toString (n / 1000) ++ "." ++ pad ++ toString frac

/-- Evaluation of `uid or str(uuid.uuid4())`: the session uid when truthy,
otherwise a fresh draw from the uuid oracle (consuming one index). -/
def pickUid (env : Env) (sess : Sess) : String × Sess :=
  if truthy sess.uid then (sess.uid, sess)
  else (env.freshUid sess.uuidCount, { sess with uuidCount := sess.uuidCount + 1 })

/-- Step 1 of `flush_audio`'s body: the `if redis and not sent_session_start`
block. Builds the `session_start` payload (consuming a uid draw if the
session uid is not truthy), attempts one `xadd`; on success the event is
appended and the flag is set, on a raised exception the error is logged
and swallowed and the flag stays false. -/
def sessionStartStep (env : Env) (sess : Sess) : List Event × Sess :=
  if sess.sent_session_start then ([], sess)
  else
    let us := pickUid env sess
    let ok := env.publishOk us.2.pubCount
    let s2 := { us.2 with pubCount := us.2.pubCount + 1 }
    if ok then
      ([Event.session_start sess.token sess.platform sess.meeting_id us.1
          (env.nowIso us.2.pubCount)],
       { s2 with sent_session_start := true })
    else ([], s2)

/-- Embedding of `flush_audio(audio_bytes, current_speaker, nonlocal_offset)`.
Returns the events appended to the stream, the updated session context,
and `Except.ok newOffset` (the Python return value) or `Except.error ()`
when the backend call raises and the exception escapes the coroutine.
`current_speaker` is only ever logged by the source, so it is an unused
argument here. The PCM→WAV conversion is a stateless re-wrapping of the
buffered bytes, so the backend oracle is indexed directly by the raw
audio bytes. -/
def flush_audio (env : Env) (sess : Sess) (current_speaker : String)
    (nonlocal_offset : ℚ) (audio_bytes : List Nat) :
    List Event × Sess × Except Unit ℚ :=
  if audio_bytes = [] ∨ ¬ truthy sess.token ∨ ¬ truthy sess.platform
      ∨ ¬ truthy sess.meeting_id then
    ([], sess, Except.ok nonlocal_offset)
  else
    let es1 := sessionStartStep env sess
    match env.backend audio_bytes with
    | none => (es1.1, es1.2, Except.error ())
    | some text =>
      let start_time := nonlocal_offset
      let end_time := nonlocal_offset + env.CHUNK_SECONDS
      let segment : Segment :=
        { text := text
          start := formatFixed3 start_time
          end_ := formatFixed3 end_time
          language := none }
      let us := pickUid env es1.2
      let ok := env.publishOk us.2.pubCount
      let s3 := { us.2 with pubCount := us.2.pubCount + 1 }
      let evs2 :=
        if ok then
          [Event.transcription sess.token sess.platform sess.meeting_id
            [segment] us.1]
        else []
      (es1.1 ++ evs2, s3, Except.ok end_time)

/-- Local state of the `ws_proxy` receive loop. -/
structure Conn where
  buf : List Nat
  speaker : String
  last_send : ℚ
  sess : Sess
  offset_sec : ℚ
deriving DecidableEq

/-- Session context at connection accept: all identity fields unset,
`sent_session_start = False`, no oracle draws yet. -/
def initSess : Sess :=
  { token := ""
    platform := ""
    meeting_id := ""
    uid := ""
    sent_session_start := false
    pubCount := 0
    uuidCount := 0 }

/-- Loop state at connection accept (accept time normalised to 0). -/
def initConn : Conn :=
  { buf := []
    speaker := "unknown"
    last_send := 0
    sess := initSess
    offset_sec := 0 }

/-- Inbound frames, as classified by the receive loop: a binary frame
(with its arrival time on the event-loop clock), a JSON text frame
carrying the three identity keys (`uid = ""` models an absent or falsy
`uid` key), a `speaker_activity` text frame
(`participant_name = ""` models an absent or falsy name), or any other
text frame (malformed JSON or an unrecognised object, both ignored). -/
inductive Msg where
  | audio (now : ℚ) (data : List Nat)
  | identity (token platform meeting_id uid : String)
  | speaker_activity (event_type participant_name : String)
  | malformed
deriving DecidableEq

/-- Speaker-update logic of the `speaker_activity` branch:
`SPEAKER_START` installs `participant_name or "unknown"`; `SPEAKER_END`
resets to `"unknown"` only when the named participant is the current
speaker; anything else leaves the speaker unchanged. -/
def updateSpeakerActivity (speaker event_type participant_name : String) :
    String :=
  let name_evt := if participant_name = "" then "unknown" else participant_name
  if event_type = "SPEAKER_START" then name_evt
  else if event_type = "SPEAKER_END" ∧ name_evt = speaker then "unknown"
  else speaker

/-- Outcome of processing inbound messages: the updated loop state, the
events appended to the stream, the audio argument of every `flush_audio`
invocation (in order), and whether an exception escaped (aborting the
loop). -/
structure Out where
  conn : Conn
  events : List Event
  flushCalls : List (List Nat)
  raised : Bool
deriving DecidableEq

/-- One iteration of the receive loop on one inbound message. On a binary
frame the bytes are appended and, if a chunk duration has elapsed since
`last_send`, `flush_audio` runs on the whole buffer; only when it returns
normally are the buffer cleared, the timer reset and the offset updated —
a raised exception leaves all three as they were and aborts the loop. -/
def step (env : Env) (c : Conn) : Msg → Out
  | Msg.audio now data =>
    let buf1 := c.buf ++ data
    if now - c.last_send ≥ env.CHUNK_SECONDS then
      match flush_audio env c.sess c.speaker c.offset_sec buf1 with
      | (evs, s1, Except.ok o) =>
        ⟨{ buf := []
           speaker := c.speaker
           last_send := now
           sess := s1
           offset_sec := o }, evs, [buf1], false⟩
      | (evs, s1, Except.error _) =>
        ⟨{ c with buf := buf1, sess := s1 }, evs, [buf1], true⟩
    else ⟨{ c with buf := buf1 }, [], [], false⟩
  | Msg.identity token platform meeting_id uid =>
    ⟨{ c with sess :=
        { c.sess with
            token := token
            platform := platform
            meeting_id := meeting_id
            uid := if truthy uid then uid else c.sess.uid } }, [], [], false⟩
  | Msg.speaker_activity event_type participant_name =>
    ⟨{ c with speaker :=
        updateSpeakerActivity c.speaker event_type participant_name },
      [], [], false⟩
  | Msg.malformed => ⟨c, [], [], false⟩

/-- The `while True` receive loop: processes messages in order until the
list is exhausted (the `websocket.disconnect` message) or an exception
escapes a flush. -/
def runLoop (env : Env) (c : Conn) : List Msg → Out
  | [] => ⟨c, [], [], false⟩
  | m :: rest =>
    let o := step env c m
    if o.raised then ⟨o.conn, o.events, o.flushCalls, true⟩
    else
      let o2 := runLoop env o.conn rest
      ⟨o2.conn, o.events ++ o2.events, o.flushCalls ++ o2.flushCalls,
        o2.raised⟩

/-- Whole-connection outcome: `closed` records whether `await ws.close()`
was reached (it is skipped when the final flush itself raises). -/
structure Run where
  events : List Event
  flushCalls : List (List Nat)
  conn : Conn
  raised : Bool
  closed : Bool
deriving DecidableEq

/-- Embedding of the whole `ws_proxy` handler: run the receive loop from
the initial state, then the `finally` block — one final `flush_audio` on
the residual buffer iff it is non-empty, then `ws.close()`. -/
def ws_proxy_run (env : Env) (msgs : List Msg) : Run :=
  let o := runLoop env initConn msgs
  if o.conn.buf = [] then
    ⟨o.events, o.flushCalls, o.conn, o.raised, true⟩
  else
    match flush_audio env o.conn.sess o.conn.speaker o.conn.offset_sec
        o.conn.buf with
    | (evs2, s1, Except.ok off) =>
      ⟨o.events ++ evs2, o.flushCalls ++ [o.conn.buf],
        { o.conn with sess := s1, offset_sec := off }, o.raised, true⟩
    | (evs2, s1, Except.error _) =>
      ⟨o.events ++ evs2, o.flushCalls ++ [o.conn.buf],
        { o.conn with sess := s1 }, o.raised, false⟩

/-- Number of `session_start` events in a published trace. -/
def countSessionStart : List Event → Nat
  | [] => 0
  | Event.session_start _ _ _ _ _ :: rest => countSessionStart rest + 1
  | Event.transcription _ _ _ _ _ :: rest => countSessionStart rest

/-- Recogniser for `transcription` events. -/
def isTranscription : Event → Bool
  | Event.transcription _ _ _ _ _ => true
  | Event.session_start _ _ _ _ _ => false

/-- Erasure of all `speaker_activity` frames from an inbound trace. -/
def scrubSpeakerActivity : List Msg → List Msg
  | [] => []
  | Msg.speaker_activity _ _ :: rest => scrubSpeakerActivity rest
  | Msg.audio now data :: rest => Msg.audio now data :: scrubSpeakerActivity rest
  | Msg.identity t p m u :: rest => Msg.identity t p m u :: scrubSpeakerActivity rest
  | Msg.malformed :: rest => Msg.malformed :: scrubSpeakerActivity rest

/-- Replacement of the only speaker-dependent field of the loop state. -/
def setSpeaker (c : Conn) (s : String) : Conn := { c with speaker := s }

/-- Loop outcome with the speaker field normalised to a fixed value; two
outcomes with equal `normOut` agree on everything the connection ever
publishes or does, differing at most in the tracked active speaker. -/
def normOut (o : Out) : Out :=
  ⟨setSpeaker o.conn "unknown", o.events, o.flushCalls, o.raised⟩

/-- Uid field carried by an outbound event. -/
def eventUid : Event → String
  | Event.session_start _ _ _ u _ => u
  | Event.transcription _ _ _ _ u => u

/-- Segment list carried by an outbound event (empty for `session_start`). -/
def eventSegments : Event → List Segment
  | Event.session_start _ _ _ _ _ => []
  | Event.transcription _ _ _ segs _ => segs

/-- Session context with complete identity, no client uid, nothing sent yet
(used to instantiate hypotheses at concrete inputs). -/
def sessW : Sess :=
  { token := "t"
    platform := "z"
    meeting_id := "m"
    uid := ""
    sent_session_start := false
    pubCount := 0
    uuidCount := 0 }

/-- Loop state with complete identity and an untouched timeline. -/
def connW : Conn :=
  { buf := []
    speaker := "unknown"
    last_send := 0
    sess := sessW
    offset_sec := 0 }

/-- Environment in which every backend transcription call raises. -/
def envC1 : Env :=
  ⟨5, fun _ => none, fun _ => true, fun n => "u" ++ toString n, fun _ => "TS"⟩

/-- Trace for C1: identity, a due binary frame (whose flush hits the failing
backend), then a further binary frame. -/
def msgsC1 : List Msg :=
  [Msg.identity "t" "z" "m" "", Msg.audio 5 [1], Msg.audio 6 [2]]

/-- Environment whose backend answers `"late"` exactly on the chunk `[3]`. -/
def envC2 : Env :=
  ⟨5, fun b => some (if b = [3] then "late" else "other"), fun _ => true,
    fun n => "u" ++ toString n, fun _ => "TS"⟩

/-- Trace for C2: a due binary frame before any identity message, then the
identity message, then another due binary frame. -/
def msgsC2 : List Msg :=
  [Msg.audio 5 [1, 2], Msg.identity "t" "z" "m" "", Msg.audio 10 [3]]

/-- Environment with an always-succeeding backend and publishes, and a
distinct uuid per draw. -/
def envC3 : Env :=
  ⟨5, fun _ => some "x", fun _ => true, fun n => "u" ++ toString n, fun _ => "TS"⟩

/-- Trace for C3: identity without any client uid, then one due binary frame. -/
def msgsC3 : List Msg :=
  [Msg.identity "t" "z" "m" "", Msg.audio 5 [1]]

/-- Environment whose flushes succeed end to end. -/
def envW5 : Env :=
  ⟨5, fun _ => some "w", fun _ => true, fun n => "u" ++ toString n, fun _ => "TS"⟩

/-- Environment whose backend succeeds but whose every publish raises. -/
def envW6 : Env :=
  ⟨5, fun _ => some "w", fun _ => false, fun n => "u" ++ toString n, fun _ => "TS"⟩

/-- Environment for the C9 scenario (chunk duration five seconds). -/
def envC9 : Env :=
  ⟨5, fun _ => some "hello", fun _ => true, fun n => "uid" ++ toString n,
    fun _ => "TS9"⟩

/-- Trace for C9: the identity message `{token:"t1", platform:"zoom",
meeting_id:"m1"}`, then binary silence frames whose last arrival is one
chunk duration after accept. -/
def msgsC9 : List Msg :=
  [Msg.identity "t1" "zoom" "m1" "", Msg.audio 5 [0, 0]]

/-- Environment for the C10 witness. -/
def envC10 : Env :=
  ⟨5, fun _ => some "txt", fun _ => true, fun n => "u" ++ toString n, fun _ => "TS"⟩

/-- Trace with speaker-activity frames interleaved. -/
def m1C10 : List Msg :=
  [Msg.speaker_activity "SPEAKER_START" "alice", Msg.identity "t" "z" "m" "",
    Msg.audio 5 [1], Msg.speaker_activity "SPEAKER_END" "alice"]

/-- Trace with the same identity and binary frames but different
speaker-activity frames. -/
def m2C10 : List Msg :=
  [Msg.identity "t" "z" "m" "", Msg.audio 5 [1],
    Msg.speaker_activity "SPEAKER_START" "bob"]

end WhisperProxy

namespace WhisperProxy

/- ------------------------------------------------------------------
Helper lemmas about `flush_audio` and its pieces.
------------------------------------------------------------------ -/

theorem flush_audio_speaker_eq (env : Env) (s : Sess) (sp sp' : String) (o : ℚ)
    (b : List Nat) : flush_audio env s sp o b = flush_audio env s sp' o b := rfl

theorem flush_audio_noop (env : Env) (s : Sess) (sp : String) (o : ℚ)
    (b : List Nat)
    (h : b = [] ∨ ¬ truthy s.token ∨ ¬ truthy s.platform ∨ ¬ truthy s.meeting_id) :
    flush_audio env s sp o b = ([], s, Except.ok o) := by
  unfold flush_audio
  rw [if_pos h]

theorem pickUid_sent (env : Env) (s : Sess) :
    (pickUid env s).2.sent_session_start = s.sent_session_start := by
  unfold pickUid
  split <;> rfl

theorem pickUid_pubCount (env : Env) (s : Sess) :
    (pickUid env s).2.pubCount = s.pubCount := by
  unfold pickUid
  split <;> rfl

theorem sessionStartStep_sent (env : Env) (s : Sess) :
    (sessionStartStep env s).2.sent_session_start
      = (s.sent_session_start || env.publishOk s.pubCount) := by
  simp only [sessionStartStep, pickUid]
  split_ifs with h1 h2 h3 h4 <;> simp_all

theorem sessionStartStep_count (env : Env) (s : Sess) :
    countSessionStart (sessionStartStep env s).1
        + (if s.sent_session_start then 1 else 0)
      = (if (sessionStartStep env s).2.sent_session_start then 1 else 0) := by
  simp only [sessionStartStep, pickUid]
  split_ifs with h1 h2 h3 h4 <;> simp_all [countSessionStart]

theorem countSessionStart_append (xs ys : List Event) :
    countSessionStart (xs ++ ys) = countSessionStart xs + countSessionStart ys := by
  induction xs with
  | nil => simp [countSessionStart]
  | cons e rest ih =>
    cases e <;> simp [countSessionStart, ih] <;> omega

theorem flush_audio_guard_neg {s : Sess} {b : List Nat} (hb : b ≠ [])
    (h1 : truthy s.token = true) (h2 : truthy s.platform = true)
    (h3 : truthy s.meeting_id = true) :
    ¬ (b = [] ∨ ¬ truthy s.token ∨ ¬ truthy s.platform ∨ ¬ truthy s.meeting_id) := by
  simp [hb, h1, h2, h3]

theorem flush_audio_backend_none (env : Env) (s : Sess) (sp : String) (o : ℚ)
    (b : List Nat) (hb : b ≠ []) (h1 : truthy s.token = true)
    (h2 : truthy s.platform = true) (h3 : truthy s.meeting_id = true)
    (hbe : env.backend b = none) :
    flush_audio env s sp o b
      = ((sessionStartStep env s).1, (sessionStartStep env s).2, Except.error ()) := by
  unfold flush_audio
  rw [if_neg (flush_audio_guard_neg hb h1 h2 h3)]
  simp only [hbe]

theorem flush_audio_backend_some (env : Env) (s : Sess) (sp : String) (o : ℚ)
    (b : List Nat) (t : String) (hb : b ≠ []) (h1 : truthy s.token = true)
    (h2 : truthy s.platform = true) (h3 : truthy s.meeting_id = true)
    (hbe : env.backend b = some t) :
    flush_audio env s sp o b
      = ((sessionStartStep env s).1 ++
          (if env.publishOk (pickUid env (sessionStartStep env s).2).2.pubCount then
            [Event.transcription s.token s.platform s.meeting_id
              [{ text := t
                 start := formatFixed3 o
                 end_ := formatFixed3 (o + env.CHUNK_SECONDS)
                 language := none }]
              (pickUid env (sessionStartStep env s).2).1]
          else []),
        { (pickUid env (sessionStartStep env s).2).2 with
            pubCount := (pickUid env (sessionStartStep env s).2).2.pubCount + 1 },
        Except.ok (o + env.CHUNK_SECONDS)) := by
  unfold flush_audio
  rw [if_neg (flush_audio_guard_neg hb h1 h2 h3)]
  simp only [hbe]

theorem sessionStartStep_pubCount (env : Env) (s : Sess) :
    (sessionStartStep env s).2.pubCount
      = (if s.sent_session_start then s.pubCount else s.pubCount + 1) := by
  simp only [sessionStartStep, pickUid]
  split_ifs <;> simp_all

theorem sessionStartStep_uid (env : Env) (s : Sess) :
    (sessionStartStep env s).2.uid = s.uid := by
  simp only [sessionStartStep, pickUid]
  split_ifs <;> simp_all

theorem sessionStartStep_no_transcription (env : Env) (s : Sess) :
    (sessionStartStep env s).1.filter isTranscription = [] := by
  simp only [sessionStartStep, pickUid]
  split_ifs <;> simp_all [isTranscription]

/-- C8: `updateSpeakerActivity` — a `SPEAKER_START` event installs the named
participant as active speaker; a `SPEAKER_END` event resets the active
speaker to "unknown" exactly when the named participant is the current
active speaker, and leaves it unchanged for any other named participant
(the function is total, so no error is raised). -/
theorem C8_updateSpeakerActivity (sp n : String) (hn : n ≠ "") :
    updateSpeakerActivity sp "SPEAKER_START" n = n ∧
    updateSpeakerActivity sp "SPEAKER_END" n = (if n = sp then "unknown" else sp) := by
  constructor
  · simp [updateSpeakerActivity, hn]
  · simp only [updateSpeakerActivity, hn, if_false]
    split_ifs with h1 h2 h3 <;> simp_all

/-- Witness for C8 at the concrete speakers "alice"/"bob". -/
theorem C8_updateSpeakerActivity_witness :
    ("bob" : String) ≠ "" ∧
    (updateSpeakerActivity "alice" "SPEAKER_START" "bob" = "bob" ∧
     updateSpeakerActivity "alice" "SPEAKER_END" "bob"
       = (if "bob" = "alice" then "unknown" else "alice")) :=
  ⟨by decide, C8_updateSpeakerActivity "alice" "bob" (by decide)⟩

/-- C2 (amended): a flush invoked while the session identity is incomplete is
itself a no-op success — it returns the offset unchanged, publishes
nothing, touches no state and consults no oracle — but the receive loop
clears the audio buffer after every due flush regardless of the
incomplete identity, so audio received before the identity message is
discarded rather than included in the next flush. -/
theorem C2_identity_incomplete_flush (env : Env) (c : Conn) (now : ℚ)
    (data : List Nat) (hdue : now - c.last_send ≥ env.CHUNK_SECONDS)
    (hinc : ¬ truthy c.sess.token ∨ ¬ truthy c.sess.platform
      ∨ ¬ truthy c.sess.meeting_id) :
    flush_audio env c.sess c.speaker c.offset_sec (c.buf ++ data)
        = ([], c.sess, Except.ok c.offset_sec) ∧
    (step env c (Msg.audio now data)).conn.buf = [] ∧
    (step env c (Msg.audio now data)).events = [] ∧
    (step env c (Msg.audio now data)).conn.offset_sec = c.offset_sec ∧
    (step env c (Msg.audio now data)).conn.sess = c.sess := by
  have hfl := flush_audio_noop env c.sess c.speaker c.offset_sec (c.buf ++ data)
    (Or.inr hinc)
  refine ⟨hfl, ?_, ?_, ?_, ?_⟩ <;>
    simp only [step, if_pos hdue, hfl]

/-- Witness for C2's amended theorem at the start-of-connection state. -/
theorem C2_identity_incomplete_flush_witness :
    ((5 : ℚ) - initConn.last_send ≥ envC2.CHUNK_SECONDS) ∧
    (¬ truthy initConn.sess.token ∨ ¬ truthy initConn.sess.platform
      ∨ ¬ truthy initConn.sess.meeting_id) ∧
    (flush_audio envC2 initConn.sess initConn.speaker initConn.offset_sec
        (initConn.buf ++ [1, 2]) = ([], initConn.sess, Except.ok initConn.offset_sec) ∧
     (step envC2 initConn (Msg.audio 5 [1, 2])).conn.buf = [] ∧
     (step envC2 initConn (Msg.audio 5 [1, 2])).events = [] ∧
     (step envC2 initConn (Msg.audio 5 [1, 2])).conn.offset_sec = initConn.offset_sec ∧
     (step envC2 initConn (Msg.audio 5 [1, 2])).conn.sess = initConn.sess) :=
  ⟨by norm_num [initConn, envC2],
   Or.inl (by decide),
   C2_identity_incomplete_flush envC2 initConn 5 [1, 2]
     (by norm_num [initConn, envC2]) (Or.inl (by decide))⟩

/-- C6: with non-empty audio, complete identity and the flag still false, a
`SessionStart` publish is attempted (one `xadd` is consumed before any
other); its outcome alone determines the flag, and the flush is not
aborted either way — the backend call still runs, so the flush outcome
tracks the backend outcome, and on backend success a second `xadd` is
attempted for the transcription. -/
theorem C6_session_start_best_effort (env : Env) (s : Sess) (sp : String)
    (o : ℚ) (b : List Nat) (hb : b ≠ []) (h1 : truthy s.token = true)
    (h2 : truthy s.platform = true) (h3 : truthy s.meeting_id = true)
    (hflag : s.sent_session_start = false) :
    ((flush_audio env s sp o b).2.1.sent_session_start = env.publishOk s.pubCount) ∧
    ((flush_audio env s sp o b).2.1.pubCount
        = s.pubCount + (if env.backend b = none then 1 else 2)) ∧
    (env.backend b = none → (flush_audio env s sp o b).2.2 = Except.error ()) ∧
    (∀ t, env.backend b = some t →
        (flush_audio env s sp o b).2.2 = Except.ok (o + env.CHUNK_SECONDS)) := by
  cases hbe : env.backend b with
  | none =>
    have heq := flush_audio_backend_none env s sp o b hb h1 h2 h3 hbe
    rw [heq]
    simp [sessionStartStep_sent, sessionStartStep_pubCount, hflag, hbe]
  | some t' =>
    have heq := flush_audio_backend_some env s sp o b t' hb h1 h2 h3 hbe
    rw [heq]
    simp [pickUid_sent, pickUid_pubCount, sessionStartStep_sent,
      sessionStartStep_pubCount, hflag, hbe]

/-- Witness for C6 in an environment whose publishes all fail. -/
theorem C6_session_start_best_effort_witness :
    (([1] : List Nat) ≠ []) ∧ truthy sessW.token = true ∧
    truthy sessW.platform = true ∧ truthy sessW.meeting_id = true ∧
    sessW.sent_session_start = false ∧
    (((flush_audio envW6 sessW "unknown" 0 [1]).2.1.sent_session_start
        = envW6.publishOk sessW.pubCount) ∧
     ((flush_audio envW6 sessW "unknown" 0 [1]).2.1.pubCount
        = sessW.pubCount + (if envW6.backend [1] = none then 1 else 2)) ∧
     (envW6.backend [1] = none →
        (flush_audio envW6 sessW "unknown" 0 [1]).2.2 = Except.error ()) ∧
     (∀ t, envW6.backend [1] = some t →
        (flush_audio envW6 sessW "unknown" 0 [1]).2.2
          = Except.ok (0 + envW6.CHUNK_SECONDS))) :=
  ⟨by decide, by decide, by decide, by decide, by decide,
   C6_session_start_best_effort envW6 sessW "unknown" 0 [1]
     (by decide) (by decide) (by decide) (by decide) (by decide)⟩

/-- C1 (amended): when the backend call inside a due flush raises, no
`Transcription` event is published for that chunk, but the timeline
offset does NOT advance (the return statement is never reached), and the
exception escapes `flush_audio`: the receive loop aborts without
processing any subsequent inbound frame and the connection proceeds to
teardown. -/
theorem C1_backend_failure (env : Env) (c : Conn) (now : ℚ) (data : List Nat)
    (rest : List Msg) (hdue : now - c.last_send ≥ env.CHUNK_SECONDS)
    (hb : c.buf ++ data ≠ []) (h1 : truthy c.sess.token = true)
    (h2 : truthy c.sess.platform = true) (h3 : truthy c.sess.meeting_id = true)
    (hfail : env.backend (c.buf ++ data) = none) :
    (step env c (Msg.audio now data)).raised = true ∧
    (step env c (Msg.audio now data)).conn.offset_sec = c.offset_sec ∧
    (step env c (Msg.audio now data)).events.filter isTranscription = [] ∧
    runLoop env c (Msg.audio now data :: rest)
      = ⟨(step env c (Msg.audio now data)).conn,
         (step env c (Msg.audio now data)).events,
         (step env c (Msg.audio now data)).flushCalls, true⟩ := by
  have heq := flush_audio_backend_none env c.sess c.speaker c.offset_sec
    (c.buf ++ data) hb h1 h2 h3 hfail
  have hstep : step env c (Msg.audio now data)
      = ⟨{ c with buf := c.buf ++ data, sess := (sessionStartStep env c.sess).2 },
         (sessionStartStep env c.sess).1, [c.buf ++ data], true⟩ := by
    simp only [step, if_pos hdue, heq]
  rw [hstep]
  refine ⟨rfl, rfl, sessionStartStep_no_transcription env c.sess, ?_⟩
  simp only [runLoop, hstep, if_pos]

/-- Witness for C1's amended theorem: a due frame whose flush hits the
always-failing backend, with one further message pending. -/
theorem C1_backend_failure_witness :
    ((5 : ℚ) - connW.last_send ≥ envC1.CHUNK_SECONDS) ∧
    (connW.buf ++ [1] ≠ []) ∧ truthy connW.sess.token = true ∧
    truthy connW.sess.platform = true ∧ truthy connW.sess.meeting_id = true ∧
    envC1.backend (connW.buf ++ [1]) = none ∧
    ((step envC1 connW (Msg.audio 5 [1])).raised = true ∧
     (step envC1 connW (Msg.audio 5 [1])).conn.offset_sec = connW.offset_sec ∧
     (step envC1 connW (Msg.audio 5 [1])).events.filter isTranscription = [] ∧
     runLoop envC1 connW (Msg.audio 5 [1] :: [Msg.malformed])
       = ⟨(step envC1 connW (Msg.audio 5 [1])).conn,
          (step envC1 connW (Msg.audio 5 [1])).events,
          (step envC1 connW (Msg.audio 5 [1])).flushCalls, true⟩) :=
  ⟨by norm_num [connW, envC1], by decide, by decide, by decide, by decide, by decide,
   C1_backend_failure envC1 connW 5 [1] [Msg.malformed]
     (by norm_num [connW, envC1]) (by decide) (by decide) (by decide) (by decide)
     (by decide)⟩

/-- C1 counterexample: in `envC1`/`msgsC1` the backend call of the first due
flush raises; contrary to the claim, the timeline offset does not advance
by the chunk duration (it stays 0 instead of becoming 5), and the
connection does not remain open — the exception aborts the receive loop,
so the following binary frame is never processed. -/
theorem C1_counterexample :
    (ws_proxy_run envC1 msgsC1).raised = true ∧
    (ws_proxy_run envC1 msgsC1).conn.offset_sec = 0 ∧
    (ws_proxy_run envC1 msgsC1).events.filter isTranscription = [] ∧
    ¬ ((ws_proxy_run envC1 msgsC1).conn.offset_sec
        = initConn.offset_sec + envC1.CHUNK_SECONDS ∧
       (ws_proxy_run envC1 msgsC1).raised = false) := by
  refine ⟨?_, ?_, ?_, ?_⟩ <;>
  · norm_num [ws_proxy_run, runLoop, step, flush_audio, sessionStartStep, pickUid,
      truthy, initConn, initSess, envC1, msgsC1, isTranscription]
    try simp [truthy, isTranscription]
    try norm_num
    try decide

/-- C2 counterexample: in `envC2`/`msgsC2` a due flush happens before the
identity message; the loop clears the buffer after that identity-incomplete
no-op flush, so the next flush after identity completes is called with
`[3]` only — the early audio `[1, 2]` is discarded, contrary to the claim. -/
theorem C2_counterexample :
    (ws_proxy_run envC2 msgsC2).flushCalls = [[1, 2], [3]] ∧
    (runLoop envC2 initConn [Msg.audio 5 [1, 2]]).conn.buf = [] ∧
    (ws_proxy_run envC2 msgsC2).events =
      [Event.session_start "t" "z" "m" "u0" "TS",
       Event.transcription "t" "z" "m"
         [{ text := "late", start := "0.000", end_ := "5.000", language := none }] "u1"] := by
  refine ⟨?_, ?_, ?_⟩ <;>
  · norm_num [ws_proxy_run, runLoop, step, flush_audio, sessionStartStep, pickUid,
      truthy, initConn, initSess, envC2, msgsC2, formatFixed3, round_eq]
    try simp [truthy]
    try norm_num [formatFixed3, round_eq]
    try decide

theorem pickUid_fst_of_truthy (env : Env) (s : Sess) (hu : truthy s.uid = true) :
    (pickUid env s).1 = s.uid := by
  simp [pickUid, hu]

theorem sessionStartStep_uid_events (env : Env) (s : Sess)
    (hu : truthy s.uid = true) :
    ∀ e ∈ (sessionStartStep env s).1, eventUid e = s.uid := by
  simp only [sessionStartStep, pickUid, hu, if_true]
  split_ifs <;> simp [eventUid]

/-- C3 (amended): when the client supplied a truthy uid, every event a flush
publishes carries that uid; but when the client never supplied one, the
code draws a fresh `uuid.uuid4()` per event rather than one per session —
within a single full flush the `session_start` event carries draw number
`uuidCount` and the `transcription` event carries the next draw, so the
two events of the same session need not share a correlation id. -/
theorem C3_uid_per_event (env : Env) (s : Sess) (sp : String) (o : ℚ)
    (b : List Nat) (hb : b ≠ []) (h1 : truthy s.token = true)
    (h2 : truthy s.platform = true) (h3 : truthy s.meeting_id = true) :
    (truthy s.uid = true →
      ∀ e ∈ (flush_audio env s sp o b).1, eventUid e = s.uid) ∧
    (truthy s.uid = false → s.sent_session_start = false →
      env.publishOk s.pubCount = true → env.publishOk (s.pubCount + 1) = true →
      ∀ t, env.backend b = some t →
      (flush_audio env s sp o b).1 =
        [Event.session_start s.token s.platform s.meeting_id
           (env.freshUid s.uuidCount) (env.nowIso s.pubCount),
         Event.transcription s.token s.platform s.meeting_id
           [{ text := t
              start := formatFixed3 o
              end_ := formatFixed3 (o + env.CHUNK_SECONDS)
              language := none }]
           (env.freshUid (s.uuidCount + 1))]) := by
  constructor
  · intro hu e he
    cases hbe : env.backend b with
    | none =>
      rw [flush_audio_backend_none env s sp o b hb h1 h2 h3 hbe] at he
      exact sessionStartStep_uid_events env s hu e he
    | some t =>
      rw [flush_audio_backend_some env s sp o b t hb h1 h2 h3 hbe] at he
      rcases List.mem_append.mp he with hmem | hmem
      · exact sessionStartStep_uid_events env s hu e hmem
      · have huid2 : truthy (sessionStartStep env s).2.uid = true := by
          rw [sessionStartStep_uid]; exact hu
        rw [pickUid_fst_of_truthy env _ huid2, sessionStartStep_uid] at hmem
        split at hmem
        · simp only [List.mem_singleton] at hmem
          subst hmem
          rfl
        · simp at hmem
  · intro hu hflag hp1 hp2 t hbe
    rw [flush_audio_backend_some env s sp o b t hb h1 h2 h3 hbe]
    have hss : sessionStartStep env s
        = ([Event.session_start s.token s.platform s.meeting_id
              (env.freshUid s.uuidCount) (env.nowIso s.pubCount)],
           { s with
               uuidCount := s.uuidCount + 1
               pubCount := s.pubCount + 1
               sent_session_start := true }) := by
      simp [sessionStartStep, pickUid, hu, hflag, hp1]
    rw [hss]
    simp [pickUid, hu, hp2, truthy]
    simp_all [truthy]

/-- Witness for C3's amended theorem. -/
theorem C3_uid_per_event_witness :
    (([1] : List Nat) ≠ []) ∧ truthy sessW.token = true ∧
    truthy sessW.platform = true ∧ truthy sessW.meeting_id = true ∧
    ((truthy sessW.uid = true →
       ∀ e ∈ (flush_audio envC3 sessW "unknown" 0 [1]).1, eventUid e = sessW.uid) ∧
     (truthy sessW.uid = false → sessW.sent_session_start = false →
       envC3.publishOk sessW.pubCount = true →
       envC3.publishOk (sessW.pubCount + 1) = true →
       ∀ t, envC3.backend [1] = some t →
       (flush_audio envC3 sessW "unknown" 0 [1]).1 =
         [Event.session_start sessW.token sessW.platform sessW.meeting_id
            (envC3.freshUid sessW.uuidCount) (envC3.nowIso sessW.pubCount),
          Event.transcription sessW.token sessW.platform sessW.meeting_id
            [{ text := t
               start := formatFixed3 0
               end_ := formatFixed3 (0 + envC3.CHUNK_SECONDS)
               language := none }]
            (envC3.freshUid (sessW.uuidCount + 1))])) :=
  ⟨by decide, by decide, by decide, by decide,
   C3_uid_per_event envC3 sessW "unknown" 0 [1]
     (by decide) (by decide) (by decide) (by decide)⟩

/-- C3 counterexample: with no client uid, the session_start and the
transcription of the very same session carry different uids (`"u0"` vs
`"u1"`), because `uid or str(uuid.uuid4())` draws a new uuid at each
event instead of fixing one for the session. -/
theorem C3_counterexample :
    (ws_proxy_run envC3 msgsC3).events =
      [Event.session_start "t" "z" "m" "u0" "TS",
       Event.transcription "t" "z" "m"
         [{ text := "x", start := "0.000", end_ := "5.000", language := none }] "u1"] ∧
    ("u0" : String) ≠ "u1" := by
  constructor
  · norm_num [ws_proxy_run, runLoop, step, flush_audio, sessionStartStep, pickUid,
      truthy, initConn, initSess, envC3, msgsC3, formatFixed3, round_eq]
    try simp [truthy]
    try norm_num [formatFixed3, round_eq]
    try decide
  · decide

theorem flush_audio_offset_cases (env : Env) (s : Sess) (sp : String) (o : ℚ)
    (b : List Nat) :
    (flush_audio env s sp o b).2.2 = Except.error ()
    ∨ (flush_audio env s sp o b).2.2 = Except.ok o
    ∨ (flush_audio env s sp o b).2.2 = Except.ok (o + env.CHUNK_SECONDS) := by
  unfold flush_audio
  split
  · right; left; rfl
  · cases hbe : env.backend b <;> simp [hbe]

theorem sessionStartStep_not_transcription (env : Env) (s : Sess) :
    ∀ e ∈ (sessionStartStep env s).1, isTranscription e = false := by
  simp only [sessionStartStep, pickUid]
  split_ifs <;> simp [isTranscription]

theorem step_offset_mono (env : Env) (hc : 0 ≤ env.CHUNK_SECONDS) (c : Conn)
    (msg : Msg) : c.offset_sec ≤ (step env c msg).conn.offset_sec := by
  cases msg with
  | audio now data =>
    simp only [step]
    split
    · rcases hfl : flush_audio env c.sess c.speaker c.offset_sec (c.buf ++ data)
        with ⟨evs, s1, r⟩
      have hcases := flush_audio_offset_cases env c.sess c.speaker c.offset_sec
        (c.buf ++ data)
      rw [hfl] at hcases
      cases r with
      | error e => simp
      | ok o =>
        simp only at hcases
        rcases hcases with h | h | h
        · exact absurd h (by simp)
        · simp only [Except.ok.injEq] at h
          subst h
          simp
        · simp only [Except.ok.injEq] at h
          subst h
          simp
          linarith
    · simp
  | identity t p m u => simp [step]
  | speaker_activity e n => simp [step]
  | malformed => simp [step]

/-- C5: the per-session timeline offset starts at 0; a guard-passing flush
whose backend call succeeds returns the new offset `old + CHUNK_SECONDS`
and stamps its (single) transcript segment with exactly
`start = old` and `end = old + CHUNK_SECONDS` (rendered as fixed
3-decimal strings); and with a nonnegative configured chunk duration no
loop step ever decreases the offset. -/
theorem C5_timeline (env : Env) (hc : 0 ≤ env.CHUNK_SECONDS) :
    initConn.offset_sec = 0 ∧
    (∀ (s : Sess) (sp : String) (o : ℚ) (b : List Nat) (t : String),
      b ≠ [] → truthy s.token = true → truthy s.platform = true →
      truthy s.meeting_id = true → env.backend b = some t →
      (flush_audio env s sp o b).2.2 = Except.ok (o + env.CHUNK_SECONDS) ∧
      ∀ e ∈ (flush_audio env s sp o b).1, isTranscription e = true →
        eventSegments e
          = [{ text := t
               start := formatFixed3 o
               end_ := formatFixed3 (o + env.CHUNK_SECONDS)
               language := none }]) ∧
    (∀ (c : Conn) (msg : Msg), c.offset_sec ≤ (step env c msg).conn.offset_sec) := by
  refine ⟨rfl, ?_, fun c msg => step_offset_mono env hc c msg⟩
  intro s sp o b t hb h1 h2 h3 hbe
  rw [flush_audio_backend_some env s sp o b t hb h1 h2 h3 hbe]
  refine ⟨rfl, ?_⟩
  intro e he htr
  rcases List.mem_append.mp he with hmem | hmem
  · exact absurd htr (by simp [sessionStartStep_not_transcription env s e hmem])
  · split at hmem
    · simp only [List.mem_singleton] at hmem
      subst hmem
      rfl
    · simp at hmem

/-- Witness for C5 in an environment whose flushes succeed end to end. -/
theorem C5_timeline_witness :
    (0 ≤ envW5.CHUNK_SECONDS) ∧
    (initConn.offset_sec = 0 ∧
     (∀ (s : Sess) (sp : String) (o : ℚ) (b : List Nat) (t : String),
       b ≠ [] → truthy s.token = true → truthy s.platform = true →
       truthy s.meeting_id = true → envW5.backend b = some t →
       (flush_audio envW5 s sp o b).2.2 = Except.ok (o + envW5.CHUNK_SECONDS) ∧
       ∀ e ∈ (flush_audio envW5 s sp o b).1, isTranscription e = true →
         eventSegments e
           = [{ text := t
                start := formatFixed3 o
                end_ := formatFixed3 (o + envW5.CHUNK_SECONDS)
                language := none }]) ∧
     (∀ (c : Conn) (msg : Msg),
       c.offset_sec ≤ (step envW5 c msg).conn.offset_sec)) :=
  ⟨by norm_num [envW5], C5_timeline envW5 (by norm_num [envW5])⟩

theorem flush_audio_count (env : Env) (s : Sess) (sp : String) (o : ℚ)
    (b : List Nat) :
    countSessionStart (flush_audio env s sp o b).1
        + (if s.sent_session_start then 1 else 0)
      = (if (flush_audio env s sp o b).2.1.sent_session_start then 1 else 0) := by
  unfold flush_audio
  split
  · simp [countSessionStart]
  · cases hbe : env.backend b with
    | none =>
      simp only [hbe]
      exact sessionStartStep_count env s
    | some t =>
      simp only [hbe, countSessionStart_append, pickUid_sent]
      have h0 : countSessionStart
          (if env.publishOk (pickUid env (sessionStartStep env s).2).2.pubCount then
            [Event.transcription s.token s.platform s.meeting_id
              [{ text := t
                 start := formatFixed3 o
                 end_ := formatFixed3 (o + env.CHUNK_SECONDS)
                 language := none }]
              (pickUid env (sessionStartStep env s).2).1]
          else []) = 0 := by
        split <;> simp [countSessionStart]
      rw [h0]
      simpa using sessionStartStep_count env s

theorem flush_audio_sent_mono (env : Env) (s : Sess) (sp : String) (o : ℚ)
    (b : List Nat) :
    s.sent_session_start ≤ (flush_audio env s sp o b).2.1.sent_session_start := by
  unfold flush_audio
  split
  · simp
  · cases hbe : env.backend b with
    | none =>
      simp only [hbe, sessionStartStep_sent]
      cases s.sent_session_start <;> simp
    | some t =>
      simp only [hbe, pickUid_sent, sessionStartStep_sent]
      cases s.sent_session_start <;> simp

theorem step_count (env : Env) (c : Conn) (msg : Msg) :
    countSessionStart (step env c msg).events
        + (if c.sess.sent_session_start then 1 else 0)
      = (if (step env c msg).conn.sess.sent_session_start then 1 else 0) := by
  cases msg with
  | audio now data =>
    simp only [step]
    split
    · rcases hfl : flush_audio env c.sess c.speaker c.offset_sec (c.buf ++ data)
        with ⟨evs, s1, r⟩
      have hcount := flush_audio_count env c.sess c.speaker c.offset_sec
        (c.buf ++ data)
      rw [hfl] at hcount
      cases r <;> simpa using hcount
    · simp [countSessionStart]
  | identity t p m u => simp [step, countSessionStart]
  | speaker_activity e n => simp [step, countSessionStart]
  | malformed => simp [step, countSessionStart]

theorem step_sent_mono (env : Env) (c : Conn) (msg : Msg) :
    c.sess.sent_session_start ≤ (step env c msg).conn.sess.sent_session_start := by
  cases msg with
  | audio now data =>
    simp only [step]
    split
    · rcases hfl : flush_audio env c.sess c.speaker c.offset_sec (c.buf ++ data)
        with ⟨evs, s1, r⟩
      have hmono := flush_audio_sent_mono env c.sess c.speaker c.offset_sec
        (c.buf ++ data)
      rw [hfl] at hmono
      cases r <;> simpa using hmono
    · simp
  | identity t p m u => simp [step]
  | speaker_activity e n => simp [step]
  | malformed => simp [step]

theorem runLoop_count (env : Env) (msgs : List Msg) : ∀ c : Conn,
    countSessionStart (runLoop env c msgs).events
        + (if c.sess.sent_session_start then 1 else 0)
      = (if (runLoop env c msgs).conn.sess.sent_session_start then 1 else 0) := by
  induction msgs with
  | nil => intro c; simp [runLoop, countSessionStart]
  | cons m rest ih =>
    intro c
    simp only [runLoop]
    split
    · exact step_count env c m
    · simp only [countSessionStart_append]
      have h1 := step_count env c m
      have h2 := ih (step env c m).conn
      omega

/-- C4: over any whole connection (all flushes of the receive loop plus the
final flush on disconnect) at most one `SessionStart` event is published,
and the `sent_session_start` flag is monotone: it starts false and no
loop step ever takes it from true back to false. -/
theorem C4_session_start_at_most_once (env : Env) (msgs : List Msg) :
    countSessionStart (ws_proxy_run env msgs).events ≤ 1 ∧
    initConn.sess.sent_session_start = false ∧
    (∀ (c : Conn) (msg : Msg),
      c.sess.sent_session_start ≤ (step env c msg).conn.sess.sent_session_start) := by
  refine ⟨?_, rfl, fun c msg => step_sent_mono env c msg⟩
  have hloop := runLoop_count env msgs initConn
  have hinit : (if initConn.sess.sent_session_start = true then 1 else 0) = 0 := rfl
  rw [hinit] at hloop
  simp only [ws_proxy_run]
  split
  · show countSessionStart (runLoop env initConn msgs).events ≤ 1
    split at hloop <;> omega
  · rcases hfl : flush_audio env (runLoop env initConn msgs).conn.sess
        (runLoop env initConn msgs).conn.speaker
        (runLoop env initConn msgs).conn.offset_sec
        (runLoop env initConn msgs).conn.buf with ⟨evs2, s1, r⟩
    have hcount := flush_audio_count env (runLoop env initConn msgs).conn.sess
      (runLoop env initConn msgs).conn.speaker
      (runLoop env initConn msgs).conn.offset_sec
      (runLoop env initConn msgs).conn.buf
    rw [hfl] at hcount
    dsimp only at hcount
    cases r <;>
    · show countSessionStart ((runLoop env initConn msgs).events ++ evs2) ≤ 1
      rw [countSessionStart_append]
      cases hb : (runLoop env initConn msgs).conn.sess.sent_session_start <;>
        cases hs : s1.sent_session_start <;>
          simp only [hb, hs] at hloop hcount <;>
          simp at hloop hcount <;>
          omega

/-- C7: after the receive loop exits, exactly one additional `flush_audio`
call is made iff the residual buffer is non-empty, and that call receives
exactly the residual bytes; its events are appended after the loop's
events; with an empty residual buffer no extra flush happens. -/
theorem C7_final_flush (env : Env) (msgs : List Msg) :
    (ws_proxy_run env msgs).flushCalls
      = (runLoop env initConn msgs).flushCalls ++
        (if (runLoop env initConn msgs).conn.buf = [] then []
         else [(runLoop env initConn msgs).conn.buf]) ∧
    (ws_proxy_run env msgs).events
      = (runLoop env initConn msgs).events ++
        (if (runLoop env initConn msgs).conn.buf = [] then []
         else (flush_audio env (runLoop env initConn msgs).conn.sess
                (runLoop env initConn msgs).conn.speaker
                (runLoop env initConn msgs).conn.offset_sec
                (runLoop env initConn msgs).conn.buf).1) := by
  simp only [ws_proxy_run]
  split
  next hbuf =>
    simp [hbuf]
  next hbuf =>
    rcases hfl : flush_audio env (runLoop env initConn msgs).conn.sess
        (runLoop env initConn msgs).conn.speaker
        (runLoop env initConn msgs).conn.offset_sec
        (runLoop env initConn msgs).conn.buf with ⟨evs2, s1, r⟩
    cases r <;> simp [hbuf, hfl]

/-- C9: for the run that receives the identity message and then binary
audio until one chunk duration (5 s) has elapsed, the first flush
publishes exactly one `SessionStart` followed by exactly one
`Transcription` whose single segment has `start = "0.000"` and
`end = "5.000"` (fixed 3-decimal strings) and `language = null`. -/
theorem C9_first_chunk_scenario :
    (ws_proxy_run envC9 msgsC9).events =
      [Event.session_start "t1" "zoom" "m1" "uid0" "TS9",
       Event.transcription "t1" "zoom" "m1"
         [{ text := "hello", start := "0.000", end_ := "5.000", language := none }]
         "uid1"] := by
  norm_num [ws_proxy_run, runLoop, step, flush_audio, sessionStartStep, pickUid,
    truthy, initConn, initSess, envC9, msgsC9, formatFixed3, round_eq]
  try simp [truthy]
  try norm_num [formatFixed3, round_eq]
  try decide

theorem step_audio_setSpeaker (env : Env) (c : Conn) (s : String) (now : ℚ)
    (data : List Nat) :
    step env (setSpeaker c s) (Msg.audio now data)
      = ⟨setSpeaker (step env c (Msg.audio now data)).conn s,
         (step env c (Msg.audio now data)).events,
         (step env c (Msg.audio now data)).flushCalls,
         (step env c (Msg.audio now data)).raised⟩ := by
  simp only [step, setSpeaker]
  rw [flush_audio_speaker_eq env c.sess s c.speaker]
  split
  · rcases hfl : flush_audio env c.sess c.speaker c.offset_sec (c.buf ++ data)
      with ⟨evs, s1, r⟩
    cases r <;> rfl
  · rfl

theorem step_identity_setSpeaker (env : Env) (c : Conn) (s : String)
    (t p mi u : String) :
    step env (setSpeaker c s) (Msg.identity t p mi u)
      = ⟨setSpeaker (step env c (Msg.identity t p mi u)).conn s,
         (step env c (Msg.identity t p mi u)).events,
         (step env c (Msg.identity t p mi u)).flushCalls,
         (step env c (Msg.identity t p mi u)).raised⟩ := rfl

theorem step_malformed_setSpeaker (env : Env) (c : Conn) (s : String) :
    step env (setSpeaker c s) Msg.malformed
      = ⟨setSpeaker (step env c Msg.malformed).conn s,
         (step env c Msg.malformed).events,
         (step env c Msg.malformed).flushCalls,
         (step env c Msg.malformed).raised⟩ := rfl

theorem runLoop_scrub (env : Env) (msgs : List Msg) : ∀ (c : Conn) (s : String),
    normOut (runLoop env c msgs)
      = normOut (runLoop env (setSpeaker c s) (scrubSpeakerActivity msgs)) := by
  induction msgs with
  | nil =>
    intro c s
    simp [runLoop, scrubSpeakerActivity, normOut, setSpeaker]
  | cons m rest ih =>
    intro c s
    cases m with
    | audio now data =>
      have hscrub : scrubSpeakerActivity (Msg.audio now data :: rest)
          = Msg.audio now data :: scrubSpeakerActivity rest := rfl
      rw [hscrub]
      simp only [runLoop]
      rw [step_audio_setSpeaker env c s now data]
      rcases hstep : step env c (Msg.audio now data) with ⟨c1, evs, fs, raised⟩
      cases raised with
      | true => simp [normOut, setSpeaker]
      | false =>
        have h3 := ih c1 s
        simp only [setSpeaker] at h3 ⊢
        simp only [normOut, Out.mk.injEq, Conn.mk.injEq] at h3 ⊢
        simp_all
    | identity t p mi u =>
      have hscrub : scrubSpeakerActivity (Msg.identity t p mi u :: rest)
          = Msg.identity t p mi u :: scrubSpeakerActivity rest := rfl
      rw [hscrub]
      simp only [runLoop]
      rw [step_identity_setSpeaker env c s t p mi u]
      rcases hstep : step env c (Msg.identity t p mi u) with ⟨c1, evs, fs, raised⟩
      cases raised with
      | true => simp [normOut, setSpeaker]
      | false =>
        have h3 := ih c1 s
        simp only [setSpeaker] at h3 ⊢
        simp only [normOut, Out.mk.injEq, Conn.mk.injEq] at h3 ⊢
        simp_all
    | malformed =>
      have hscrub : scrubSpeakerActivity (Msg.malformed :: rest)
          = Msg.malformed :: scrubSpeakerActivity rest := rfl
      rw [hscrub]
      simp only [runLoop]
      rw [step_malformed_setSpeaker env c s]
      rcases hstep : step env c Msg.malformed with ⟨c1, evs, fs, raised⟩
      cases raised with
      | true => simp [normOut, setSpeaker]
      | false =>
        have h3 := ih c1 s
        simp only [setSpeaker] at h3 ⊢
        simp only [normOut, Out.mk.injEq, Conn.mk.injEq] at h3 ⊢
        simp_all
    | speaker_activity e n =>
      have hscrub : scrubSpeakerActivity (Msg.speaker_activity e n :: rest)
          = scrubSpeakerActivity rest := rfl
      rw [hscrub]
      have h2 : runLoop env c (Msg.speaker_activity e n :: rest)
          = ⟨(runLoop env { c with speaker := updateSpeakerActivity c.speaker e n } rest).conn,
             (runLoop env { c with speaker := updateSpeakerActivity c.speaker e n } rest).events,
             (runLoop env { c with speaker := updateSpeakerActivity c.speaker e n } rest).flushCalls,
             (runLoop env { c with speaker := updateSpeakerActivity c.speaker e n } rest).raised⟩ := by
        simp [runLoop, step]
      rw [h2]
      have h3 := ih { c with speaker := updateSpeakerActivity c.speaker e n } s
      simp only [setSpeaker] at h3 ⊢
      simp only [normOut, Out.mk.injEq, Conn.mk.injEq] at h3 ⊢
      simp_all

theorem ws_proxy_run_scrub_events (env : Env) (msgs : List Msg) :
    (ws_proxy_run env msgs).events
      = (ws_proxy_run env (scrubSpeakerActivity msgs)).events := by
  have h := runLoop_scrub env msgs initConn "unknown"
  have hinit : setSpeaker initConn "unknown" = initConn := rfl
  rw [hinit] at h
  simp only [normOut, setSpeaker, Out.mk.injEq, Conn.mk.injEq] at h
  obtain ⟨⟨hbuf, -, hls, hsess, hoff⟩, hev, hfs, hr⟩ := h
  simp only [ws_proxy_run]
  rw [hev, hbuf, hsess, hoff,
    flush_audio_speaker_eq env (runLoop env initConn (scrubSpeakerActivity msgs)).conn.sess
      (runLoop env initConn msgs).conn.speaker
      (runLoop env initConn (scrubSpeakerActivity msgs)).conn.speaker]
  split
  · rfl
  · rcases hfl : flush_audio env
        (runLoop env initConn (scrubSpeakerActivity msgs)).conn.sess
        (runLoop env initConn (scrubSpeakerActivity msgs)).conn.speaker
        (runLoop env initConn (scrubSpeakerActivity msgs)).conn.offset_sec
        (runLoop env initConn (scrubSpeakerActivity msgs)).conn.buf
      with ⟨evs2, s1, r⟩
    cases r <;> rfl

/-- C10: the published event sequence is independent of the
speaker-activity input — two runs that agree on all inbound frames except
their `speaker_activity` text frames publish identical event sequences;
the tracked active speaker feeds only the log line. -/
theorem C10_speaker_noninterference (env : Env) (m1 m2 : List Msg)
    (h : scrubSpeakerActivity m1 = scrubSpeakerActivity m2) :
    (ws_proxy_run env m1).events = (ws_proxy_run env m2).events := by
  rw [ws_proxy_run_scrub_events env m1, ws_proxy_run_scrub_events env m2, h]

/-- Witness for C10 on two concrete traces differing only in their
speaker-activity frames. -/
theorem C10_speaker_noninterference_witness :
    scrubSpeakerActivity m1C10 = scrubSpeakerActivity m2C10 ∧
    (ws_proxy_run envC10 m1C10).events = (ws_proxy_run envC10 m2C10).events :=
  ⟨rfl, C10_speaker_noninterference envC10 m1C10 m2C10 rfl⟩

end WhisperProxy
